import Mathlib

/-!
Shallow embedding of `src/multi-model-dev/scripts/merger.py` (the consensus
merger).  Python strings are modelled as Lean `String`s (sequences of Unicode
scalar values), Python `dict`s as insertion-ordered association lists (CPython
dicts iterate in insertion order), Python `int`s as `Int`, and the single
float produced by the pipeline (the aggregate score, an exact mean of small
integers) as `Rat`.  Calls into the CPython runtime parser `ast.parse` are
modelled by an environment `PyEnv` mapping a source string either to the list
of its top-level AST nodes (projected to exactly the node attributes the
merger reads) or to a `SynErr` value standing for the raised `SyntaxError`
(on modern CPython a null byte in the source also raises `SyntaxError`, so
every parse failure of interest is a `SynErr`).  Raising an exception is
modelled by `Except`/`Option`; the merger itself is a total function, which
is the embedding of the fact that no error escapes it.
-/

namespace Merger

/-! ### Python string primitives -/

/-- The characters Python `str.strip()` / regex `\s` treat as whitespace
(ASCII range; all inputs in this development are ASCII). -/
def pyIsSpaceChar (c : Char) : Bool :=
  c = ' ' || c = '\t' || c = '\n' || c = '\r' || c = Char.ofNat 11 || c = Char.ofNat 12

/-- Single-quote character (written via its code point to keep the source free
of bare apostrophes). -/
def squote : Char := Char.ofNat 39

/-- Double-quote character. -/
def dquote : Char := Char.ofNat 34

/-- Backtick character. -/
def backtick : Char := Char.ofNat 96

/-- Python `str.strip()` on a character list. -/
def pyStripList (cs : List Char) : List Char :=
  ((cs.dropWhile pyIsSpaceChar).reverse.dropWhile pyIsSpaceChar).reverse

/-- Python `str.strip()`. -/
def pyStrip (s : String) : String := String.mk (pyStripList s.toList)

/-- Worker for `re.sub(r'\s+', ' ', s)`: collapse every maximal whitespace run
to a single space.  The flag records whether the previous character was
whitespace. -/
def collapseWsAux : Bool → List Char → List Char
  | _, [] => []
  | prevSp, c :: rest =>
    if pyIsSpaceChar c then
      if prevSp then collapseWsAux true rest
      else ' ' :: collapseWsAux true rest
    else c :: collapseWsAux false rest

/-- `re.sub(r'\s+', ' ', s)`. -/
def normalizeWs (s : String) : String := String.mk (collapseWsAux false s.toList)

/-- Substring test (`needle in haystack` for Python strings), list worker. -/
def containsSubAux (pat : List Char) : List Char → Bool
  | [] => pat.isEmpty
  | c :: rest => List.isPrefixOf pat (c :: rest) || containsSubAux pat rest

/-- Python `pat in s`. -/
def containsSub (s pat : String) : Bool := containsSubAux pat.toList s.toList

/-- Non-overlapping occurrence count (`str.count`) for a non-empty pattern
`p :: ps`, list worker; after a match the scan resumes past the matched
characters.  `fuel` only bounds the recursion and is initialised to more
steps than characters. -/
def countSubAux (p : Char) (ps : List Char) : Nat → List Char → Nat
  | 0, _ => 0
  | _ + 1, [] => 0
  | fuel + 1, c :: rest =>
    if List.isPrefixOf (p :: ps) (c :: rest) then
      1 + countSubAux p ps fuel (rest.drop ps.length)
    else
      countSubAux p ps fuel rest

/-- Python `s.count(pat)` for the non-empty patterns used by the scorer. -/
def countSub (s pat : String) : Nat :=
  match pat.toList with
  | [] => 0
  | p :: ps => countSubAux p ps (s.toList.length + 1) s.toList

/-- Split on a separator character keeping empty parts (`str.split('\n')`),
list worker; the accumulator holds the current part reversed. -/
def splitOnCharAux (sep : Char) : List Char → List Char → List String
  | acc, [] => [String.mk acc.reverse]
  | acc, c :: rest =>
    if c = sep then String.mk acc.reverse :: splitOnCharAux sep [] rest
    else splitOnCharAux sep (c :: acc) rest

/-- Python `code.split('\n')`. -/
def splitLines (s : String) : List String := splitOnCharAux '\n' [] s.toList

/-- Python `sep.join(parts)`. -/
def joinSep (sep : String) : List String → String
  | [] => ""
  | [x] => x
  | x :: y :: rest => x ++ sep ++ joinSep sep (y :: rest)

/-- Python `s.startswith(pre)`. -/
def strStartsWith (s pre : String) : Bool := List.isPrefixOf pre.toList s.toList

/-- Python `str.split()` (split on whitespace runs, dropping empties), list
worker; the accumulator holds the current word reversed. -/
def pySplitWsGo : List Char → List Char → List String
  | acc, [] => if acc.isEmpty then [] else [String.mk acc.reverse]
  | acc, c :: rest =>
    if pyIsSpaceChar c then
      if acc.isEmpty then pySplitWsGo [] rest
      else String.mk acc.reverse :: pySplitWsGo [] rest
    else pySplitWsGo (c :: acc) rest

/-- Python `str.split()`. -/
def pySplitWs (s : String) : List String := pySplitWsGo [] s.toList

/-- Python `str.lower()` (ASCII inputs). -/
def pyLower (s : String) : String := String.mk (s.toList.map Char.toLower)

/-- Regex `\w` (ASCII inputs). -/
def isWordChar (c : Char) : Bool := c.isAlphanum || c = '_'

/-- Python `str.isupper()` (ASCII inputs): at least one cased character and no
lowercase one. -/
def pyIsUpper (s : String) : Bool :=
  s.toList.any (fun c => c.isUpper) && s.toList.all (fun c => !c.isLower)

/-- Lexicographic comparison of character lists by code point (Python string
`<`). -/
def listLexLt : List Char → List Char → Bool
  | [], [] => false
  | [], _ :: _ => true
  | _ :: _, [] => false
  | a :: as, b :: bs =>
    if a.toNat < b.toNat then true
    else if b.toNat < a.toNat then false
    else listLexLt as bs

/-- Python string `<`. -/
def strLt (a b : String) : Bool := listLexLt a.toList b.toList

/-- Find the first occurrence of the non-empty pattern `p :: ps` and return
the suffix following it. -/
def findAfter (p : Char) (ps : List Char) : List Char → Option (List Char)
  | [] => none
  | c :: rest =>
    if List.isPrefixOf (p :: ps) (c :: rest) then some (rest.drop ps.length)
    else findAfter p ps rest

/-- Ordered occurrence of a sequence of literal substrings inside one line
(evaluation of regex `a.*b.*c...` where `.` does not cross newlines). -/
def lineHasSeq : List Char → List String → Bool
  | _, [] => true
  | cs, pat :: pats =>
    match pat.toList with
    | [] => lineHasSeq cs pats
    | p :: ps =>
      match findAfter p ps cs with
      | some rest => lineHasSeq rest pats
      | none => false

/-- Evaluation of `re.search(r'for.*in.*range.*len\(', code)`: because `.`
does not match a newline the whole match lies within one line. -/
def forRangeLen (code : String) : Bool :=
  (splitLines code).any (fun line => lineHasSeq line.toList ["for", "in", "range", "len("])

/-- The literal `'''` (built from code points to avoid bare apostrophes). -/
def tripleSq : String := String.mk [squote, squote, squote]

/-- The literal `"""`. -/
def tripleDq : String := String.mk [dquote, dquote, dquote]

/-- The literal "plus space double-quote double-quote". -/
def plusDq : String := String.mk ['+', ' ', dquote, dquote]

/-- The literal "plus space quote quote". -/
def plusSq : String := String.mk ['+', ' ', squote, squote]

/-- Python `repr` of a list of simple strings (used only in log lines; the
strings logged here contain no characters needing escapes). -/
def pyReprStrList (l : List String) : String :=
  "[" ++ joinSep ", " (l.map (fun s => String.mk [squote] ++ s ++ String.mk [squote])) ++ "]"

/-! ### Data classes -/

/-- `ComponentType` enum. -/
inductive ComponentType
  | imprt
  | cls
  | function
  | constant
  | typeDef
  | decorator
  | main
  | other
deriving DecidableEq

/-- `ComponentType.value`. -/
def ComponentType.value : ComponentType → String
  | .imprt => "import"
  | .cls => "class"
  | .function => "function"
  | .constant => "constant"
  | .typeDef => "type_def"
  | .decorator => "decorator"
  | .main => "main"
  | .other => "other"

/-- `CodeBlock` dataclass. -/
structure CodeBlock where
  content : String
  language : String
  source_model : String
  start_line : Nat := 0
  end_line : Nat := 0
deriving DecidableEq

/-- `CodeBlock.hash`: md5 of the whitespace-normalized content.  The hash is
modelled by the normalized content itself: two contents collide exactly when
their normalizations agree (md5 collisions between distinct short normalized
texts do not occur for any input considered here). -/
def CodeBlock.blockHash (b : CodeBlock) : String := normalizeWs (pyStrip b.content)

/-- One `ast.alias` (an entry of `node.names`): the merger reads only `.name`,
the alias (`asname`) is carried to show it is dropped. -/
structure PyAlias where
  name : String
  asname : Option String
deriving DecidableEq

/-- An assignment target as the merger sees it: a plain `ast.Name` or anything
else. -/
inductive PyTarget
  | nameT (id : String)
  | otherT
deriving DecidableEq

/-- A raised `SyntaxError` from `ast.parse`. -/
structure SynErr where
  lineno : Nat
  msg : String
deriving DecidableEq

/-- A top-level AST node projected to the attributes `_node_to_component`
reads.  For `FunctionDef`/`ClassDef`/`Assign`, `lineno`/`endLineno` are the
1-based first and last line of the node in the parsed source (CPython sets
`lineno` to the `def`/`class` line itself, excluding decorator lines). -/
inductive PyNode
  | imprtN (names : List PyAlias)
  | importFromN (module : Option String) (names : List PyAlias)
  | functionDefN (name : String) (args : List String) (isAsync : Bool)
      (decorators : List String) (hasDocstring : Bool) (deps : List String)
      (lineno endLineno : Nat)
  | classDefN (name : String) (bases : List String) (methods : List String)
      (hasDocstring : Bool) (deps : List String) (lineno endLineno : Nat)
  | assignN (targets : List PyTarget) (lineno endLineno : Nat)
  | exprN
deriving DecidableEq

/-- The CPython parser as an oracle: `parse s` is `.ok nodes` when
`ast.parse(s)` succeeds with the given top-level nodes and `.error e` when it
raises `SyntaxError e`. -/
structure PyEnv where
  parse : String → Except SynErr (List PyNode)

/-- The kind-specific `metadata` dict of a component.  `hasDocstring` is
`none` when the key is absent (imports, constants), mirroring
`metadata.get("has_docstring")` returning `None`. -/
structure PyMetadata where
  args : List String := []
  isAsync : Bool := false
  decorators : List String := []
  bases : List String := []
  methods : List String := []
  hasDocstring : Option Bool := none
deriving DecidableEq

/-- `CodeComponent` dataclass.  `dependencies` is the set of identifiers
referenced in the body (carried as a list; the merger never reads it when
producing output).  `score` is the dataclass field with default `0.0`; it is
never written. -/
structure CodeComponent where
  type : ComponentType
  name : String
  code : String
  source_model : String
  dependencies : List String := []
  score : Rat := 0
  metadata : PyMetadata := {}
deriving DecidableEq

/-- The six sub-scores (the keys of the Python `scores` dict, in insertion
order: correctness, structure, performance, best_practices, documentation,
testing). -/
structure SubScores where
  correctness : Int
  structureS : Int
  performance : Int
  bestPractices : Int
  documentation : Int
  testing : Int
deriving DecidableEq

/-- `sum(scores.values())`. -/
def SubScores.total (s : SubScores) : Int :=
  s.correctness + s.structureS + s.performance + s.bestPractices + s.documentation + s.testing

/-- `ScoredComponent` dataclass. -/
structure ScoredComponent where
  component : CodeComponent
  scores : SubScores
  total_score : Int
  issues : List String := []
deriving DecidableEq

/-- `MergeResult` dataclass.  `total_score` is the Python float; every value
it takes is an exact mean of small integers, represented in `Rat`. -/
structure MergeResult where
  merged_code : String
  total_score : Rat
  components_used : List (String × String)
  merge_log : List String
  validation_passed : Bool
  validation_errors : List String := []
deriving DecidableEq

/-! ### CodeBlockParser -/

/-- Three consecutive backticks at the head of the list. -/
def isTicks3 (cs : List Char) : Bool :=
  match cs with
  | a :: b :: c :: _ => a = backtick && b = backtick && c = backtick
  | _ => false

/-- Scan for the closing triple backtick of the lazy group `(.*?)` (DOTALL):
returns the characters before the first occurrence and the remainder after
it. -/
def findClose : List Char → Option (List Char × List Char)
  | [] => none
  | c :: rest =>
    if isTicks3 (c :: rest) then some ([], rest.drop 2)
    else (findClose rest).map (fun p => (c :: p.1, p.2))

/-- One match of `CODE_BLOCK_PATTERN` = ```` ```(\w*)\n(.*?)``` ````:
`lang` is group 1, `body` group 2 (before stripping), and
`startLine`/`endLine` are `count('\n')+1` of the text before the match start
and end (the values stored in the resulting `CodeBlock`). -/
structure FenceMatch where
  lang : String
  body : String
  startLine : Nat
  endLine : Nat
deriving DecidableEq

/-- Evaluation of `CODE_BLOCK_PATTERN.finditer`: scan left to right; a match
needs three backticks, then a (possibly empty) run of word characters, then a
newline, then the lazily shortest body up to the next three backticks.  On a
failed attempt the scan advances one character, on a match it resumes after
the match (the semantics of `re.finditer`).  `nl` counts newlines consumed so
far; `fuel` only bounds the recursion and is initialised to more steps than
characters. -/
def fenceScanF : Nat → List Char → Nat → List FenceMatch
  | 0, _, _ => []
  | _ + 1, [], _ => []
  | fuel + 1, c :: rest, nl =>
    if isTicks3 (c :: rest) then
      let afterTicks := rest.drop 2
      let lang := afterTicks.takeWhile isWordChar
      match afterTicks.dropWhile isWordChar with
      | nlc :: afterNl =>
        if nlc = '\n' then
          match findClose afterNl with
          | some (body, remainder) =>
            let bodyNl := body.count '\n'
            { lang := String.mk lang, body := String.mk body,
              startLine := nl + 1, endLine := nl + 2 + bodyNl }
              :: fenceScanF fuel remainder (nl + 1 + bodyNl)
          | none => fenceScanF fuel rest nl
        else fenceScanF fuel rest nl
      | [] => fenceScanF fuel rest nl
    else fenceScanF fuel rest (nl + (if c = '\n' then 1 else 0))

/-- All fence matches of an output string. -/
def fenceMatches (s : String) : List FenceMatch :=
  fenceScanF (s.toList.length + 1) s.toList 0

/-- `LANGUAGE_ALIASES`. -/
def LANGUAGE_ALIASES : List (String × String) :=
  [("py", "python"), ("js", "javascript"), ("ts", "typescript"),
   ("tsx", "typescript"), ("jsx", "javascript"), ("sh", "bash"),
   ("shell", "bash"), ("yml", "yaml")]

/-- `LANGUAGE_ALIASES.get(language, language)`. -/
def aliasLang (l : String) : String :=
  match LANGUAGE_ALIASES.lookup l with
  | some x => x
  | none => l

/-- `CodeBlockParser.parse`: extract fenced blocks (normalised language tag,
stripped non-empty content); if none are found and the stripped output is
non-empty, the whole stripped output becomes one block tagged `text`. -/
def CodeBlockParser.parse (output : String) (source_model : String) : List CodeBlock :=
  let blocks := (fenceMatches output).filterMap (fun m =>
    let language0 := pyLower m.lang
    let language := aliasLang (if language0 = "" then "text" else language0)
    let content := pyStrip m.body
    if content = "" then none
    else some { content := content, language := language,
                source_model := source_model,
                start_line := m.startLine, end_line := m.endLine })
  if blocks.isEmpty ∧ pyStrip output ≠ "" then
    [{ content := pyStrip output, language := "text", source_model := source_model }]
  else blocks

/-- Worker for `CodeBlockParser.deduplicate`: keep the first block for each
content hash. -/
def dedupBlocksAux : List String → List CodeBlock → List CodeBlock
  | _, [] => []
  | seen, b :: rest =>
    if seen.contains b.blockHash then dedupBlocksAux seen rest
    else b :: dedupBlocksAux (b.blockHash :: seen) rest

/-- `CodeBlockParser.deduplicate`. -/
def CodeBlockParser.deduplicate (blocks : List CodeBlock) : List CodeBlock :=
  dedupBlocksAux [] blocks

/-! ### PythonComponentParser -/

/-- `_get_source`: `'\n'.join(lines[node.lineno - 1 : node.end_lineno])`. -/
def getSource (lines : List String) (lineno endLineno : Nat) : String :=
  joinSep "\n" ((lines.drop (lineno - 1)).take (endLineno - (lineno - 1)))

/-- The first `ast.Name` target whose identifier `isupper()` (the loop in the
`ast.Assign` branch). -/
def firstUpperName : List PyTarget → Option String
  | [] => none
  | .nameT id :: rest => if pyIsUpper id then some id else firstUpperName rest
  | .otherT :: rest => firstUpperName rest

/-- `PythonComponentParser._node_to_component`.  Import statements are
rebuilt from the alias names only (`asname` is dropped); functions, classes
and constants take their code from the line slice of the parsed source. -/
def PythonComponentParser.nodeToComponent
    (lines : List String) (source_model : String) : PyNode → Option CodeComponent
  | .imprtN names =>
    some { type := .imprt,
           name := (names.headD { name := "", asname := none }).name,
           code := "import " ++ joinSep ", " (names.map (fun a => a.name)),
           source_model := source_model }
  | .importFromN module names =>
    let first := (names.headD { name := "", asname := none }).name
    let modPrint := match module with | some m => m | none => "None"
    some { type := .imprt,
           name := modPrint ++ "." ++ first,
           code := "from " ++ module.getD "" ++ " import "
                     ++ joinSep ", " (names.map (fun a => a.name)),
           source_model := source_model }
  | .functionDefN name args isAsync decorators hasDoc deps lineno endLineno =>
    some { type := .function, name := name,
           code := getSource lines lineno endLineno,
           source_model := source_model,
           dependencies := deps,
           metadata := { args := args, isAsync := isAsync,
                         decorators := decorators, hasDocstring := some hasDoc } }
  | .classDefN name bases methods hasDoc deps lineno endLineno =>
    some { type := .cls, name := name,
           code := getSource lines lineno endLineno,
           source_model := source_model,
           dependencies := deps,
           metadata := { bases := bases, methods := methods,
                         hasDocstring := some hasDoc } }
  | .assignN targets lineno endLineno =>
    match firstUpperName targets with
    | some id =>
      some { type := .constant, name := id,
             code := getSource lines lineno endLineno,
             source_model := source_model }
    | none => none
  | .exprN => none

/-- `PythonComponentParser.parse`: on a `SyntaxError` the whole code becomes
one fallback component (`except SyntaxError` branch); otherwise each
top-level node is converted. -/
def PythonComponentParser.parse (env : PyEnv) (code : String) (source_model : String) :
    List CodeComponent :=
  match env.parse code with
  | .error _ =>
    [{ type := .other, name := "unparsed", code := code, source_model := source_model }]
  | .ok nodes =>
    nodes.filterMap (PythonComponentParser.nodeToComponent (splitLines code) source_model)

/-! ### Component signature -/

/-- Evaluation of `re.match(r'(async\s+)?def\s+(\w+)\s*\(([^)]*)\)', code)`:
returns the captured function name when the anchored match succeeds.  The
optional group consumes `async` plus whitespace only when both are present
(backtracking cannot rescue a partial group here because `\s` matches no word
character). -/
def funcSigName (code : String) : Option String :=
  let cs := code.toList
  let cs1 :=
    if List.isPrefixOf ['a', 's', 'y', 'n', 'c'] cs then
      match cs.drop 5 with
      | c :: _ => if pyIsSpaceChar c then (cs.drop 5).dropWhile pyIsSpaceChar else cs
      | [] => cs
    else cs
  if List.isPrefixOf ['d', 'e', 'f'] cs1 then
    match cs1.drop 3 with
    | c :: rest =>
      if pyIsSpaceChar c then
        let r2 := rest.dropWhile pyIsSpaceChar
        let w := r2.takeWhile isWordChar
        if w.isEmpty then none
        else
          match (r2.dropWhile isWordChar).dropWhile pyIsSpaceChar with
          | '(' :: r5 => if r5.any (fun d => d = ')') then some (String.mk w) else none
          | _ => none
      else none
    | [] => none
  else none

/-- Evaluation of `re.match(r'class\s+(\w+)', code)`. -/
def classSigName (code : String) : Option String :=
  let cs := code.toList
  if List.isPrefixOf ['c', 'l', 'a', 's', 's'] cs then
    match cs.drop 5 with
    | c :: rest =>
      if pyIsSpaceChar c then
        let w := (rest.dropWhile pyIsSpaceChar).takeWhile isWordChar
        if w.isEmpty then none else some (String.mk w)
      else none
    | [] => none
  else none

/-- `CodeComponent.signature`. -/
def CodeComponent.signature (c : CodeComponent) : String :=
  match c.type with
  | .function =>
    match funcSigName c.code with
    | some n => "func:" ++ n
    | none => c.type.value ++ ":" ++ c.name
  | .cls =>
    match classSigName c.code with
    | some n => "class:" ++ n
    | none => c.type.value ++ ":" ++ c.name
  | .imprt => "import:" ++ pyStrip c.code
  | _ => c.type.value ++ ":" ++ c.name

/-! ### QualityScorer -/

/-- Number of lines of a code string (`code.count('\n') + 1`). -/
def linesOf (code : String) : Int := (code.toList.count '\n' : Int) + 1

/-- Correctness criterion (20 pts): base 15, plus 5 when the code re-parses
standalone (imports are exempt from the parse and always get the bonus);
on `SyntaxError` the score drops to 5 and an issue is recorded. -/
def correctnessVal (env : PyEnv) (c : CodeComponent) : Int :=
  if c.type = .imprt then 20
  else
    match env.parse c.code with
    | .ok _ => 20
    | .error _ => 5

/-- Issue recorded by the correctness criterion. -/
def correctnessIssues (env : PyEnv) (c : CodeComponent) : List String :=
  if c.type = .imprt then []
  else
    match env.parse c.code with
    | .ok _ => []
    | .error e => ["Syntax error: " ++ e.msg]

/-- Structure criterion before the `min(structure, 20)` cap. -/
def structureRawVal (c : CodeComponent) : Int :=
  10 +
    (if c.type = .function then
      (if linesOf c.code < 30 then 5
       else if linesOf c.code > 100 then -5 else 0)
      + (if countSub c.code "def " ≤ 1 then 3 else 0)
      + (if containsSub c.code "return" then 2 else 0)
     else if c.type = .cls then
      (if containsSub c.code "__init__" then 5 else 0)
      + (if countSub c.code "def " > 1 then 3 else 0)
     else 0)

/-- Issues recorded by the structure criterion. -/
def structureIssues (c : CodeComponent) : List String :=
  if c.type = .function then
    if linesOf c.code < 30 then []
    else if linesOf c.code > 100 then ["Function too long (>100 lines)"]
    else []
  else []

/-- Structure criterion (20 pts). -/
def structureVal (c : CodeComponent) : Int := min (structureRawVal c) 20

/-- Performance criterion before the `max(performance, 0)` floor. -/
def performanceRawVal (c : CodeComponent) : Int :=
  10
  - (if containsSub c.code "time.sleep" && !containsSub c.code "async" then 3 else 0)
  - (if forRangeLen c.code then 2 else 0)
  - (if containsSub c.code plusDq || containsSub c.code plusSq then 2 else 0)

/-- Issues recorded by the performance criterion. -/
def performanceIssues (c : CodeComponent) : List String :=
  (if containsSub c.code "time.sleep" && !containsSub c.code "async" then
     ["Blocking sleep in sync code"] else [])
  ++ (if forRangeLen c.code then ["Using range(len()) instead of enumerate"] else [])

/-- Performance criterion (15 pts). -/
def performanceVal (c : CodeComponent) : Int := max (performanceRawVal c) 0

/-- Regex `^[a-z_][a-z0-9_]*$`. -/
def isSnakeCase (s : String) : Bool :=
  match s.toList with
  | [] => false
  | c :: rest =>
    (c.isLower || c = '_') && rest.all (fun d => d.isLower || d.isDigit || d = '_')

/-- Regex `^[A-Z][a-zA-Z0-9]*$`. -/
def isPascalCase (s : String) : Bool :=
  match s.toList with
  | [] => false
  | c :: rest => c.isUpper && rest.all (fun d => d.isAlpha || d.isDigit)

/-- Best-practices criterion before the `min(best_practices, 20)` cap. -/
def bestPracticesRawVal (c : CodeComponent) : Int :=
  10
  + (if containsSub c.code ": " && containsSub c.code "->" then 5 else 0)
  + (if c.type = .constant && pyIsUpper c.name then 3 else 0)
  + (if c.type = .function then (if isSnakeCase c.name then 3 else 0)
     else if c.type = .cls then (if isPascalCase c.name then 3 else 0)
     else 0)

/-- Issues recorded by the best-practices criterion. -/
def bestPracticesIssues (c : CodeComponent) : List String :=
  if c.type = .function then
    if isSnakeCase c.name then [] else ["Function name not snake_case"]
  else if c.type = .cls then
    if isPascalCase c.name then [] else ["Class name not PascalCase"]
  else []

/-- Best-practices criterion (20 pts). -/
def bestPracticesVal (c : CodeComponent) : Int := min (bestPracticesRawVal c) 20

/-- Documentation criterion (15 pts). -/
def documentationVal (c : CodeComponent) : Int :=
  min (5
    + (if containsSub c.code tripleDq || containsSub c.code tripleSq then 8 else 0)
    + (if containsSub c.code "#" then 2 else 0)
    + (if c.metadata.hasDocstring.getD false then 2 else 0)) 15

/-- Testing / error-handling criterion (10 pts). -/
def testingVal (c : CodeComponent) : Int :=
  min (3
    + (if containsSub c.code "try:" || containsSub c.code "except" then 4 else 0)
    + (if containsSub c.code "raise" then 2 else 0)
    + (if containsSub c.code "assert" || containsSub (pyLower c.name) "test" then 3 else 0)) 10

/-- `QualityScorer.score`. -/
def QualityScorer.score (env : PyEnv) (c : CodeComponent) : ScoredComponent :=
  let scores : SubScores :=
    { correctness := correctnessVal env c, structureS := structureVal c,
      performance := performanceVal c, bestPractices := bestPracticesVal c,
      documentation := documentationVal c, testing := testingVal c }
  { component := c, scores := scores, total_score := scores.total,
    issues := correctnessIssues env c ++ structureIssues c
                ++ performanceIssues c ++ bestPracticesIssues c }

/-- `score(c).total_score` as a shorthand. -/
def compTotal (env : PyEnv) (c : CodeComponent) : Int :=
  (QualityScorer.score env c).total_score

/-! ### ComponentGrouper -/

/-- Append a component to the group of its signature, keeping first-seen
insertion order of the signatures (Python dict construction). -/
def addToGroups : List (String × List CodeComponent) → String → CodeComponent →
    List (String × List CodeComponent)
  | [], sig, c => [(sig, [c])]
  | (s, l) :: rest, sig, c =>
    if s = sig then (s, l ++ [c]) :: rest
    else (s, l) :: addToGroups rest sig c

/-- `ComponentGrouper.group`. -/
def ComponentGrouper.group (components : List CodeComponent) :
    List (String × List CodeComponent) :=
  components.foldl (fun gs c => addToGroups gs c.signature c) []

/-- Insert into a list sorted by descending score, placing the new element
before every element with a smaller-or-equal score it passes; combined with
`sortDesc` below this reproduces Python `list.sort(key=..., reverse=True)`,
which is stable (equal keys keep first-seen order). -/
def insDesc {α : Type} (x : α × Int) : List (α × Int) → List (α × Int)
  | [] => [x]
  | y :: ys => if y.2 ≤ x.2 then x :: y :: ys else y :: insDesc x ys

/-- Stable descending sort by the integer key. -/
def sortDesc {α : Type} : List (α × Int) → List (α × Int)
  | [] => []
  | x :: xs => insDesc x (sortDesc xs)

/-- The first-seen maximum of a non-empty list with integer keys (`x` is the
earliest element): the element that a stable descending sort places at the
head. -/
def firstMaxP {α : Type} (x : α × Int) : List (α × Int) → α × Int
  | [] => x
  | y :: ys =>
    let m := firstMaxP y ys
    if m.2 > x.2 then m else x

/-- `ComponentGrouper.find_best`: a single-element group returns its member
without scoring; otherwise score all members, sort descending (stable) and
take the head.  `none` models the `IndexError` Python would raise on an empty
group (never reached by the merger). -/
def ComponentGrouper.findBest (env : PyEnv) (group : List CodeComponent) :
    Option CodeComponent :=
  if group.length = 1 then group.head?
  else
    ((sortDesc (group.map (fun comp => (comp, (QualityScorer.score env comp).total_score)))).head?).map
      Prod.fst

/-! ### CodeMerger -/

/-- Worker for the import deduplication loop: keep the first import for each
whitespace-normalized statement text. -/
def dedupImportsAux : List String → List CodeComponent → List CodeComponent
  | _, [] => []
  | seen, imp :: rest =>
    let normalized := normalizeWs (pyStrip imp.code)
    if seen.contains normalized then dedupImportsAux seen rest
    else imp :: dedupImportsAux (normalized :: seen) rest

/-- Keep-first deduplication of strings (Python `set` membership during
`sorted(set(...))`; order is irrelevant because the result is sorted). -/
def dedupStringsAux : List String → List String → List String
  | _, [] => []
  | seen, s :: rest =>
    if seen.contains s then dedupStringsAux seen rest
    else s :: dedupStringsAux (s :: seen) rest

/-- Keep-first deduplication of strings. -/
def dedupStrings (l : List String) : List String := dedupStringsAux [] l

/-- Insert into an ascending (Python `<`) sorted list of distinct strings. -/
def insertAsc (x : String) : List String → List String
  | [] => [x]
  | y :: ys => if strLt x y then x :: y :: ys else y :: insertAsc x ys

/-- Ascending sort of strings. -/
def sortStrings : List String → List String
  | [] => []
  | x :: xs => insertAsc x (sortStrings xs)

/-- `sorted(set(l))`. -/
def sortedSet (l : List String) : List String := sortStrings (dedupStrings l)

/-- The fixed "stdlib" module set of `_merge_python`. -/
def stdlibNames : List String :=
  ["os", "sys", "re", "json", "time", "datetime", "typing", "pathlib",
   "collections", "functools", "asyncio"]

/-- The stdlib test of `_merge_python`:
`not i.startswith('from ') or i.split()[1].split('.')[0] in {...}` (a
non-`from` import line always counts as stdlib; rebuilt `from` lines always
have a second whitespace-separated token). -/
def isStdlibLine (i : String) : Bool :=
  !strStartsWith i "from " ||
    stdlibNames.contains
      ((splitOnCharAux '.' [] ((pySplitWs i).getD 1 "").toList).headD "")

/-- `CodeMerger._merge_python`. -/
def CodeMerger.mergePython (components : List CodeComponent) : String :=
  let imports := components.filter (fun c => c.type = .imprt)
  let constants := components.filter (fun c => c.type = .constant)
  let classes := components.filter (fun c => c.type = .cls)
  let functions := components.filter (fun c => c.type = .function)
  let mains := components.filter (fun c => c.type = .main)
  let others := components.filter (fun c =>
    c.type ≠ .imprt ∧ c.type ≠ .constant ∧ c.type ≠ .cls ∧
    c.type ≠ .function ∧ c.type ≠ .main)
  let unique_imports := dedupImportsAux [] imports
  let importSections :=
    if unique_imports.isEmpty then []
    else
      let import_lines := sortedSet (unique_imports.map (fun i => pyStrip i.code))
      let stdlib := import_lines.filter isStdlibLine
      let third_party := import_lines.filter (fun i => !stdlib.contains i)
      (if stdlib.isEmpty then [] else [joinSep "\n" stdlib])
      ++ (if third_party.isEmpty then [] else [joinSep "\n" third_party])
  let sections :=
    importSections
    ++ (if constants.isEmpty then []
        else [joinSep "\n" (constants.map (fun c => c.code))])
    ++ classes.map (fun c => c.code)
    ++ functions.map (fun c => c.code)
    ++ others.map (fun c => c.code)
    ++ (if mains.isEmpty then [] else [joinSep "\n" (mains.map (fun c => c.code))])
  joinSep "\n\n\n" sections

/-- `CodeMerger.merge`. -/
def CodeMerger.merge (components : List CodeComponent) (language : String) : String :=
  if language = "python" then CodeMerger.mergePython components
  else joinSep "\n\n" (components.map (fun c => c.code))

/-! ### SyntaxValidator -/

/-- `SyntaxValidator.validate`. -/
def SyntaxValidator.validate (env : PyEnv) (code : String) (language : String) :
    Bool × List String :=
  if language = "python" then
    match env.parse code with
    | .ok _ => (true, [])
    | .error e => (false, ["Line " ++ toString e.lineno ++ ": " ++ e.msg])
  else (!(pyStrip code = ""), [])

/-! ### ConsensusMerger -/

/-- The priority table of `_order_by_dependency`. -/
def typePriority : ComponentType → Nat
  | .imprt => 0
  | .constant => 1
  | .typeDef => 2
  | .cls => 3
  | .function => 4
  | .decorator => 5
  | .main => 6
  | .other => 7

/-- Insert into a list sorted ascending by type priority, keeping earlier
components before later ones of equal priority (Python `sorted` is
stable). -/
def insAscC (x : CodeComponent) : List CodeComponent → List CodeComponent
  | [] => [x]
  | y :: ys =>
    if typePriority x.type ≤ typePriority y.type then x :: y :: ys
    else y :: insAscC x ys

/-- `ConsensusMerger._order_by_dependency` (a stable sort by the priority
table; every component type is in the table, so the `99` default is never
used). -/
def ConsensusMerger.orderByDependency : List CodeComponent → List CodeComponent
  | [] => []
  | x :: xs => insAscC x (ConsensusMerger.orderByDependency xs)

/-- Evaluation of `re.sub(r',\s*\)', ')', code)`: whenever a comma is
followed by (possibly empty) whitespace and then a closing parenthesis, the
comma and whitespace are removed; the scan resumes after the parenthesis
(non-overlapping matches, left to right).  A comma that does not begin a
match is copied and the scan resumes at the next character.  `fuel` only
bounds the recursion and is initialised to more steps than characters. -/
def fixTrailingCommaF : Nat → List Char → List Char
  | 0, _ => []
  | _ + 1, [] => []
  | fuel + 1, c :: rest =>
    if c = ',' then
      match rest.dropWhile pyIsSpaceChar with
      | ')' :: r3 => ')' :: fixTrailingCommaF fuel r3
      | _ => c :: fixTrailingCommaF fuel rest
    else c :: fixTrailingCommaF fuel rest

/-- The first repair substitution. -/
def fixTrailingComma (s : String) : String :=
  String.mk (fixTrailingCommaF (s.toList.length + 1) s.toList)

/-- Evaluation of `re.sub(r'([\"\'])([^\"\']*?)$', r'\1\2\1', code,
flags=re.MULTILINE)` on one line: a successful match must start at a quote
character and run to the end of the line with no quote in between, so the
leftmost match starts at the last quote of the line and the replacement
appends a copy of that quote at the end of the line; a line without quotes is
unchanged. -/
def lineAppendQuote (line : String) : String :=
  match (line.toList.filter (fun c => c = dquote || c = squote)).getLast? with
  | some q => String.mk (line.toList ++ [q])
  | none => line

/-- The second repair substitution (`$` with MULTILINE matches at each line
end, so the substitution acts per line). -/
def fixUnterminated (s : String) : String :=
  joinSep "\n" ((splitLines s).map lineAppendQuote)

/-- `ConsensusMerger._attempt_fix` (the `errors` argument is unused, as in
the source). -/
def ConsensusMerger.attemptFix (code : String) (_errors : List String) : String :=
  fixUnterminated (fixTrailingComma code)

/-- Steps 7 of `merge`: validate; on failure log, apply `_attempt_fix` once
and re-validate once.  Returns (final code, is_valid, errors, extra log
lines). -/
def ConsensusMerger.validateAndRepair (env : PyEnv) (code : String) (language : String) :
    String × Bool × List String × List String :=
  let r0 := SyntaxValidator.validate env code language
  if r0.1 then (code, true, r0.2, [])
  else
    let fixed := ConsensusMerger.attemptFix code r0.2
    let r1 := SyntaxValidator.validate env fixed language
    (fixed, r1.1, r1.2, ["Validation failed: " ++ pyReprStrList r0.2])

/-- Step 1 of `merge`: parse blocks from every origin in iteration order. -/
def collectBlocks (outputs : List (String × String)) : List CodeBlock :=
  outputs.foldl (fun acc p => acc ++ CodeBlockParser.parse p.2 p.1) []

/-- Blocks after deduplication. -/
def uniqueBlocksOf (outputs : List (String × String)) : List CodeBlock :=
  CodeBlockParser.deduplicate (collectBlocks outputs)

/-- Step 2 of `merge`: decompose every `python` or `text` block. -/
def componentsOf (env : PyEnv) (outputs : List (String × String)) : List CodeComponent :=
  (uniqueBlocksOf outputs).foldl (fun acc b =>
    if b.language = "python" ∨ b.language = "text" then
      acc ++ PythonComponentParser.parse env b.content b.source_model
    else acc) []

/-- One step of Python `max` with `key=lambda b: len(b.content)`: keep the
current maximum unless the next element is strictly longer (so the first
maximum wins ties). -/
def stepMax (acc x : CodeBlock) : CodeBlock :=
  if acc.content.length < x.content.length then x else acc

/-- `max(unique_blocks, key=lambda b: len(b.content))`: the first block of
maximal content length (`none` on an empty list, where Python would raise). -/
def maxBlock? : List CodeBlock → Option CodeBlock
  | [] => none
  | b :: rest => some (rest.foldl stepMax b)

/-- `components_used[name] = model`: Python dict assignment keeps the
position of an existing key and overwrites its value, otherwise appends. -/
def updateAssoc (l : List (String × String)) (k v : String) : List (String × String) :=
  match l with
  | [] => [(k, v)]
  | (k1, v1) :: rest =>
    if k1 = k then (k1, v) :: rest else (k1, v1) :: updateAssoc rest k v

/-- Step 4 of `merge`: select the best component of every group, recording
provenance and a log line for contested groups.  The `none` branch of
`findBest` is unreachable (groups are never empty). -/
def selectComponents (env : PyEnv) (groups : List (String × List CodeComponent)) :
    List CodeComponent × List (String × String) × List String :=
  groups.foldl (fun acc sg =>
    match ComponentGrouper.findBest env sg.2 with
    | some best =>
      (acc.1 ++ [best],
       updateAssoc acc.2.1 best.name best.source_model,
       acc.2.2 ++
         (if sg.2.length > 1 then
            ["  " ++ sg.1 ++ ": chose " ++ best.source_model ++ " from "
               ++ pyReprStrList (sg.2.map (fun c => c.source_model))]
          else []))
    | none => acc) ([], [], [])

/-- `ConsensusMerger.merge`. -/
def ConsensusMerger.merge (env : PyEnv) (outputs : List (String × String))
    (language : String) : MergeResult :=
  let parseLog := outputs.map (fun p =>
    "Parsed " ++ toString (CodeBlockParser.parse p.2 p.1).length ++ " blocks from " ++ p.1)
  let unique_blocks := uniqueBlocksOf outputs
  let log1 := parseLog ++ ["After dedup: " ++ toString unique_blocks.length ++ " unique blocks"]
  let all_components := componentsOf env outputs
  let log2 := log1 ++ ["Parsed " ++ toString all_components.length ++ " components"]
  if all_components.isEmpty then
    match maxBlock? unique_blocks with
    | some best_block =>
      { merged_code := best_block.content
        total_score := 50
        components_used := [("raw", best_block.source_model)]
        merge_log := log2 ++ ["Using raw block (no parseable components)"]
        validation_passed := true
        validation_errors := [] }
    | none =>
      { merged_code := ""
        total_score := 0
        components_used := []
        merge_log := log2 ++ ["No code found"]
        validation_passed := false
        validation_errors := ["No code to merge"] }
  else
    let groups := ComponentGrouper.group all_components
    let log3 := log2 ++ ["Grouped into " ++ toString groups.length ++ " component groups"]
    let sel := selectComponents env groups
    let selected := sel.1
    let ordered := ConsensusMerger.orderByDependency selected
    let merged0 := CodeMerger.merge ordered language
    let vr := ConsensusMerger.validateAndRepair env merged0 language
    let total : Rat :=
      if selected.isEmpty then 0
      else ((selected.map (fun c => ((QualityScorer.score env c).total_score : Rat))).sum)
             / (selected.length : Rat)
    { merged_code := vr.1
      total_score := total
      components_used := sel.2.1
      merge_log := log3 ++ sel.2.2 ++ vr.2.2.2
      validation_passed := vr.2.1
      validation_errors := vr.2.2.1 }

/-! ### Concrete parser-oracle environments

Each environment is a finite table of CPython `ast.parse` results for the
strings a particular example run actually parses; every string not in the
table is mapped to the `SyntaxError` CPython raises for it (all such strings
in the examples below are genuinely unparseable, with the error on line 1).
-/

/-- An oracle from a finite table, defaulting to `SyntaxError`. -/
def tableEnv (table : List (String × List PyNode)) : PyEnv :=
  { parse := fun s =>
      match table.lookup s with
      | some nodes => .ok nodes
      | none => .error { lineno := 1, msg := "invalid syntax" } }

/-- The oracle in which nothing parses (used for inputs that are all
syntactically invalid). -/
def envErr : PyEnv := tableEnv []

/-- Origin A of the selection example: an annotated, docstringed `add`. -/
def addA : String :=
  "def add(a: int, b: int) -> int:\n    \"\"\"Add two integers.\"\"\"\n    return a + b"

/-- Origin B of the selection example: a bare `add`. -/
def addB : String := "def add(a, b):\n    return a + b"

/-- Oracle for the selection example (`addA` and `addB` each parse to one
`FunctionDef` named `add`; `addA` has a docstring, `addB` does not). -/
def envC4 : PyEnv := tableEnv
  [(addA, [.functionDefN "add" ["a", "b"] false [] true ["a", "b", "int"] 1 3]),
   (addB, [.functionDefN "add" ["a", "b"] false [] false ["a", "b"] 1 2])]

/-- A function `f` returning 1. -/
def fv1 : String := "def f():\n    return 1"

/-- A structurally identical function `f` returning 2 (same score as
`fv1`). -/
def fv2 : String := "def f():\n    return 2"

/-- Oracle for the determinism counterexample. -/
def envC2 : PyEnv := tableEnv
  [(fv1, [.functionDefN "f" [] false [] false [] 1 2]),
   (fv2, [.functionDefN "f" [] false [] false [] 1 2])]

/-- The two-origin input of the determinism counterexample. -/
def outsAB : List (String × String) := [("A", fv1), ("B", fv2)]

/-- The same mapping with the opposite insertion order. -/
def outsBA : List (String × String) := [("B", fv2), ("A", fv1)]

/-- An unparseable input for the idempotence counterexample: the first line
contains a repairable `, )` pattern, the second line stays unparseable, so
the repair pass rewrites the text again on re-merge. -/
def badText : String := "g(a, , )\ndef f(:"

/-- A well-behaved single-origin input for the no-op re-merge instance. -/
def goodText : String := "import os\n\ndef f():\n    return 1"

/-- The merged output of `goodText` (canonical order, triple-newline
separator). -/
def mergedGood : String := "import os\n\n\ndef f():\n    return 1"

/-- Oracle for the no-op re-merge instance.  In `goodText` the function is on
lines 3-4; in `mergedGood` on lines 4-5. -/
def envC5 : PyEnv := tableEnv
  [(goodText, [.imprtN [{ name := "os", asname := none }],
               .functionDefN "f" [] false [] false [] 3 4]),
   (mergedGood, [.imprtN [{ name := "os", asname := none }],
                 .functionDefN "f" [] false [] false [] 4 5]),
   (fv1, [.functionDefN "f" [] false [] false [] 1 2])]

/-- `import os` with an extra space. -/
def impOs2 : String := "import  os"

/-- Oracle for the import-deduplication example (the second origin is
deduplicated at the block level before parsing, so only `import os` is ever
parsed). -/
def envC7 : PyEnv := tableEnv
  [("import os", [.imprtN [{ name := "os", asname := none }]])]

/-- Oracle for the alias-dropping examples (both import kinds). -/
def envC9 : PyEnv := tableEnv
  [("import numpy as np", [.imprtN [{ name := "numpy", asname := some "np" }]]),
   ("import numpy", [.imprtN [{ name := "numpy", asname := none }]]),
   ("from x import y as z",
      [.importFromN (some "x") [{ name := "y", asname := some "z" }]]),
   ("from x import y",
      [.importFromN (some "x") [{ name := "y", asname := none }]])]

/-- Erase the `asname` of an alias: the statement that import rebuilding
drops aliases is that it is invariant under this erasure. -/
def stripAlias (a : PyAlias) : PyAlias := { name := a.name, asname := none }

/-- Oracle for the raw-fallback case: `print(1)` parses to a single
expression statement, which decomposition ignores. -/
def envC10 : PyEnv := tableEnv [("print(1)", [.exprN])]

/-- The single block produced from `print(1)` (witness input). -/
def bbPrint : CodeBlock :=
  { content := "print(1)", language := "text", source_model := "m" }

/-- A two-element component group (witness input). -/
def cW1 : CodeComponent :=
  { type := .other, name := "w1", code := "x", source_model := "A" }

/-- Second member of the witness group. -/
def cW2 : CodeComponent :=
  { type := .other, name := "w2", code := "y", source_model := "B" }

/-! ### Helper lemmas -/

/-- Bounds of the correctness criterion. -/
theorem correctnessVal_bounds (env : PyEnv) (c : CodeComponent) :
    0 ≤ correctnessVal env c ∧ correctnessVal env c ≤ 20 := by
  unfold correctnessVal
  split
  · omega
  · split <;> omega

/-- Bounds of the raw structure score. -/
theorem structureRawVal_bounds (c : CodeComponent) :
    5 ≤ structureRawVal c ∧ structureRawVal c ≤ 20 := by
  unfold structureRawVal
  split_ifs <;> omega

/-- Bounds of the structure criterion. -/
theorem structureVal_bounds (c : CodeComponent) :
    0 ≤ structureVal c ∧ structureVal c ≤ 20 := by
  have := structureRawVal_bounds c
  unfold structureVal
  omega

/-- Bounds of the raw performance score. -/
theorem performanceRawVal_bounds (c : CodeComponent) :
    3 ≤ performanceRawVal c ∧ performanceRawVal c ≤ 10 := by
  unfold performanceRawVal
  split_ifs <;> omega

/-- Bounds of the performance criterion. -/
theorem performanceVal_bounds (c : CodeComponent) :
    0 ≤ performanceVal c ∧ performanceVal c ≤ 15 := by
  have := performanceRawVal_bounds c
  unfold performanceVal
  omega

/-- Bounds of the raw best-practices score (the bonus conditions for
constants and functions are mutually exclusive in fact, but the coarse bound
21 is all the capped criterion needs). -/
theorem bestPracticesRawVal_bounds (c : CodeComponent) :
    10 ≤ bestPracticesRawVal c ∧ bestPracticesRawVal c ≤ 21 := by
  unfold bestPracticesRawVal
  split_ifs <;> omega

/-- Bounds of the best-practices criterion. -/
theorem bestPracticesVal_bounds (c : CodeComponent) :
    0 ≤ bestPracticesVal c ∧ bestPracticesVal c ≤ 20 := by
  have := bestPracticesRawVal_bounds c
  unfold bestPracticesVal
  omega

/-- Bounds of the documentation criterion. -/
theorem documentationVal_bounds (c : CodeComponent) :
    0 ≤ documentationVal c ∧ documentationVal c ≤ 15 := by
  unfold documentationVal
  split_ifs <;> omega

/-- Bounds of the testing criterion. -/
theorem testingVal_bounds (c : CodeComponent) :
    0 ≤ testingVal c ∧ testingVal c ≤ 10 := by
  unfold testingVal
  split_ifs <;> omega

/-- Head of an insertion into a non-empty descending-sorted list. -/
theorem head_insDesc {α : Type} (x y : α × Int) (l : List (α × Int)) :
    (insDesc x (y :: l)).head? = some (if y.2 ≤ x.2 then x else y) := by
  by_cases h : y.2 ≤ x.2 <;> simp [insDesc, h]

/-- The head of the stable descending sort is the first-seen maximum. -/
theorem head_sortDesc {α : Type} (x : α × Int) (l : List (α × Int)) :
    (sortDesc (x :: l)).head? = some (firstMaxP x l) := by
  induction l generalizing x with
  | nil => simp [sortDesc, insDesc, firstMaxP]
  | cons y ys ih =>
    have hy := ih y
    rcases hs : sortDesc (y :: ys) with _ | ⟨m, t⟩
    · rw [hs] at hy; simp at hy
    · rw [hs] at hy
      simp only [List.head?_cons, Option.some.injEq] at hy
      show (insDesc x (sortDesc (y :: ys))).head? = some (firstMaxP x (y :: ys))
      rw [hs, head_insDesc]
      simp only [firstMaxP]
      rw [← hy]
      by_cases h : m.2 ≤ x.2
      · simp [h, not_lt.mpr h]
      · have hlt : x.2 < m.2 := not_le.mp h
        simp [h, hlt]

/-- Specification of the first-seen maximum over a mapped list: it is a
member, it dominates every member, and every member strictly before it in
the original order scores strictly less. -/
theorem firstMaxP_spec {α : Type} (f : α → Int) (c : α) (g : List α) :
    ∃ b pre post,
      firstMaxP (c, f c) (g.map (fun d => (d, f d))) = (b, f b) ∧
      c :: g = pre ++ b :: post ∧
      (∀ d ∈ pre, f d < f b) ∧
      (∀ d ∈ c :: g, f d ≤ f b) := by
  induction g generalizing c with
  | nil =>
    refine ⟨c, [], [], by simp [firstMaxP], rfl, by simp, ?_⟩
    intro d hd
    simp at hd
    subst hd
    exact le_refl _
  | cons e g' ih =>
    obtain ⟨b', pre', post', h1, h2, h3, h4⟩ := ih e
    by_cases h : f c < f b'
    · refine ⟨b', c :: pre', post', ?_, ?_, ?_, ?_⟩
      · simp only [List.map_cons, firstMaxP]
        rw [h1]
        simp [h]
      · simp [h2]
      · intro d hd
        rcases List.mem_cons.mp hd with rfl | hd
        · exact h
        · exact h3 d hd
      · intro d hd
        rcases List.mem_cons.mp hd with rfl | hd
        · exact le_of_lt h
        · exact h4 d hd
    · refine ⟨c, [], e :: g', ?_, rfl, by simp, ?_⟩
      · simp only [List.map_cons, firstMaxP]
        rw [h1]
        simp [h]
      · intro d hd
        rcases List.mem_cons.mp hd with rfl | hd
        · exact le_refl _
        · exact le_trans (h4 d hd) (not_lt.mp h)

/-- The fold underlying Python `max(..., key=len)` returns a member that is
at least as long as the seed and every element. -/
theorem foldlStepMax_spec (l : List CodeBlock) : ∀ a : CodeBlock,
    (l.foldl stepMax a ∈ a :: l) ∧
    a.content.length ≤ (l.foldl stepMax a).content.length ∧
    ∀ x ∈ l, x.content.length ≤ (l.foldl stepMax a).content.length := by
  induction l with
  | nil => intro a; simp
  | cons y ys ih =>
    intro a
    obtain ⟨m1, m2, m3⟩ := ih (stepMax a y)
    have hstep : stepMax a y = y ∨ stepMax a y = a := by
      unfold stepMax; split <;> simp
    have hay : a.content.length ≤ (stepMax a y).content.length := by
      unfold stepMax; split <;> omega
    have hyy : y.content.length ≤ (stepMax a y).content.length := by
      unfold stepMax; split <;> omega
    refine ⟨?_, ?_, ?_⟩
    · simp only [List.foldl_cons]
      rcases List.mem_cons.mp m1 with h | h
      · rw [h]
        rcases hstep with h2 | h2 <;> rw [h2] <;> simp
      · simp [h]
    · simp only [List.foldl_cons]
      exact le_trans hay m2
    · simp only [List.foldl_cons]
      intro x hx
      rcases List.mem_cons.mp hx with rfl | hx
      · exact le_trans hyy m2
      · exact m3 x hx

/-- Specification of `maxBlock?`: a returned block is a member of maximal
content length. -/
theorem maxBlockSpec (l : List CodeBlock) (b : CodeBlock) (h : maxBlock? l = some b) :
    b ∈ l ∧ ∀ x ∈ l, x.content.length ≤ b.content.length := by
  cases l with
  | nil => simp [maxBlock?] at h
  | cons a rest =>
    simp only [maxBlock?, Option.some.injEq] at h
    obtain ⟨m1, m2, m3⟩ := foldlStepMax_spec rest a
    subst h
    refine ⟨m1, ?_⟩
    intro x hx
    rcases List.mem_cons.mp hx with rfl | hx
    · exact m2
    · exact m3 x hx

/-! ### Claim theorems -/

/-- Claim C1: for every input, component decomposition never lets a raised
`SyntaxError` escape: a block whose content fails to parse (syntax error,
null byte, ...) degrades locally to the single fallback component named
`unparsed`, and `ConsensusMerger.merge` — a total function in this embedding,
which is the statement that no error propagates out of the pipeline — still
returns a `MergeResult` carrying the bad text, as the concrete unparseable
input shows. -/
theorem C1_local_degradation :
    (∀ (env : PyEnv) (code model : String) (e : SynErr),
       env.parse code = .error e →
       PythonComponentParser.parse env code model =
         [{ type := .other, name := "unparsed", code := code, source_model := model }]) ∧
    ((ConsensusMerger.merge envErr [("m", "def f(:")] "python").merged_code = "def f(:" ∧
     (ConsensusMerger.merge envErr [("m", "def f(:")] "python").validation_passed = false) := by
  refine ⟨?_, by decide, by decide⟩
  intro env code model e h
  simp [PythonComponentParser.parse, h]

/-- Witness for C1 at a concrete unparseable input. -/
theorem C1_witness :
    PythonComponentParser.parse envErr "def g(:" "w" =
      [{ type := .other, name := "unparsed", code := "def g(:", source_model := "w" }] :=
  C1_local_degradation.1 envErr "def g(:" "w" { lineno := 1, msg := "invalid syntax" } rfl

/-- Counterexample to claim C2: the two-origin inputs `outsAB` and `outsBA`
are equal as mappings (a permutation of the same key-value pairs, equal under
Python dict equality) yet merging them produces different `merged_code` and
different provenance: the two structurally identical `f` implementations tie
on score, the stable sort keeps insertion order, and the first-inserted
origin wins. -/
theorem C2_counterexample :
    outsAB.Perm outsBA ∧
    (ConsensusMerger.merge envC2 outsAB "python").merged_code ≠
      (ConsensusMerger.merge envC2 outsBA "python").merged_code ∧
    (ConsensusMerger.merge envC2 outsAB "python").components_used.lookup "f" = some "A" ∧
    (ConsensusMerger.merge envC2 outsBA "python").components_used.lookup "f" = some "B" := by
  refine ⟨by decide, by decide, by decide, by decide⟩

/-- Amended claim C2: `merge` is a deterministic pure function of the
insertion-ordered mapping — two calls whose mappings agree as ordered
association lists (the iteration order of a CPython dict) return byte-equal
`merged_code` and equal `components_used`; as `C2_counterexample` shows,
agreement as unordered mappings is not enough. -/
theorem C2_deterministic :
    ∀ (env : PyEnv) (l1 l2 : List (String × String)), l1 = l2 →
      (ConsensusMerger.merge env l1 "python").merged_code =
        (ConsensusMerger.merge env l2 "python").merged_code ∧
      (ConsensusMerger.merge env l1 "python").components_used =
        (ConsensusMerger.merge env l2 "python").components_used := by
  intro env l1 l2 h
  subst h
  exact ⟨rfl, rfl⟩

/-- Witness for the amended C2 at a concrete input. -/
theorem C2_witness :
    (ConsensusMerger.merge envC2 outsAB "python").merged_code =
      (ConsensusMerger.merge envC2 outsAB "python").merged_code ∧
    (ConsensusMerger.merge envC2 outsAB "python").components_used =
      (ConsensusMerger.merge envC2 outsAB "python").components_used :=
  C2_deterministic envC2 outsAB outsAB rfl

/-- Claim C3: for every component and every parser oracle, each of the six
sub-scores of `QualityScorer.score` lies within `[0, weight]` (correctness
20, structure 20, performance 15, best_practices 20, documentation 15,
testing 10) and the total lies within `[0, 100]`. -/
theorem C3_score_bounds :
    ∀ (env : PyEnv) (c : CodeComponent),
      (0 ≤ (QualityScorer.score env c).scores.correctness ∧
        (QualityScorer.score env c).scores.correctness ≤ 20) ∧
      (0 ≤ (QualityScorer.score env c).scores.structureS ∧
        (QualityScorer.score env c).scores.structureS ≤ 20) ∧
      (0 ≤ (QualityScorer.score env c).scores.performance ∧
        (QualityScorer.score env c).scores.performance ≤ 15) ∧
      (0 ≤ (QualityScorer.score env c).scores.bestPractices ∧
        (QualityScorer.score env c).scores.bestPractices ≤ 20) ∧
      (0 ≤ (QualityScorer.score env c).scores.documentation ∧
        (QualityScorer.score env c).scores.documentation ≤ 15) ∧
      (0 ≤ (QualityScorer.score env c).scores.testing ∧
        (QualityScorer.score env c).scores.testing ≤ 10) ∧
      (0 ≤ (QualityScorer.score env c).total_score ∧
        (QualityScorer.score env c).total_score ≤ 100) := by
  intro env c
  have h1 := correctnessVal_bounds env c
  have h2 := structureVal_bounds c
  have h3 := performanceVal_bounds c
  have h4 := bestPracticesVal_bounds c
  have h5 := documentationVal_bounds c
  have h6 := testingVal_bounds c
  simp only [QualityScorer.score, SubScores.total]
  omega

/-- Claim C4: `find_best` returns a single-element group member without
scoring; on a larger group it returns the member with the highest total
score, ties broken by first-seen order (the stable descending sort): the
returned member dominates every member and everything before it in the group
scores strictly less.  On the concrete example, origin A's annotated and
docstringed `add` (total 86) beats origin B's bare `add` (total 71): the
merged code is A's text and provenance maps `add` to `A`. -/
theorem C4_find_best :
    (∀ (env : PyEnv) (c : CodeComponent), ComponentGrouper.findBest env [c] = some c) ∧
    (∀ (env : PyEnv) (g : List CodeComponent), g ≠ [] →
      ∃ b pre post, ComponentGrouper.findBest env g = some b ∧
        g = pre ++ b :: post ∧
        (∀ d ∈ pre, compTotal env d < compTotal env b) ∧
        (∀ d ∈ g, compTotal env d ≤ compTotal env b)) ∧
    ((ConsensusMerger.merge envC4 [("A", addA), ("B", addB)] "python").components_used.lookup
        "add" = some "A") ∧
    ((ConsensusMerger.merge envC4 [("A", addA), ("B", addB)] "python").merged_code = addA) := by
  refine ⟨?_, ?_, by decide, by decide⟩
  · intro env c
    simp [ComponentGrouper.findBest]
  · intro env g hg
    rcases g with _ | ⟨c1, _ | ⟨c2, rest⟩⟩
    · exact absurd rfl hg
    · refine ⟨c1, [], [], by simp [ComponentGrouper.findBest], rfl, by simp, ?_⟩
      intro d hd
      simp at hd
      subst hd
      exact le_refl _
    · obtain ⟨b, pre, post, h1, h2, h3, h4⟩ :=
        firstMaxP_spec (fun d => compTotal env d) c1 (c2 :: rest)
      refine ⟨b, pre, post, ?_, h2, h3, h4⟩
      have hfb : ComponentGrouper.findBest env (c1 :: c2 :: rest) =
          ((sortDesc ((c1 :: c2 :: rest).map
            (fun comp => (comp, (QualityScorer.score env comp).total_score)))).head?).map
            Prod.fst := by
        simp [ComponentGrouper.findBest]
      rw [hfb, List.map_cons, head_sortDesc]
      simp only [compTotal] at h1
      rw [h1]
      simp

/-- Witness for C4 on a concrete two-element group. -/
theorem C4_witness :
    ∃ b pre post, ComponentGrouper.findBest envErr [cW1, cW2] = some b ∧
      [cW1, cW2] = pre ++ b :: post ∧
      (∀ d ∈ pre, compTotal envErr d < compTotal envErr b) ∧
      (∀ d ∈ [cW1, cW2], compTotal envErr d ≤ compTotal envErr b) :=
  C4_find_best.2.1 envErr [cW1, cW2] (by simp)

/-- Counterexample to claim C5 (idempotence of merging): for the single
origin input `badText`, whose content is unparseable, the first merge
applies the repair pass (rewriting `, )` to `)`), and feeding the resulting
`merged_code` back in as a single-origin input applies the repair again,
changing the text a second time — re-merge is not a no-op. -/
theorem C5_counterexample :
    (ConsensusMerger.merge envErr
        [("m", (ConsensusMerger.merge envErr [("m", badText)] "python").merged_code)]
        "python").merged_code ≠
      (ConsensusMerger.merge envErr [("m", badText)] "python").merged_code := by
  decide

/-- Amended claim C5: re-merging the merged output as a new single-origin
input is a no-op when the merged output is syntactically valid and
decomposes into the same components — as on the concrete input `goodText`
(an import plus a function), whose merged output re-parses to the same
component list and re-merges to itself; it is not a no-op in general,
because the repair pass can rewrite a still-invalid output again
(`C5_counterexample`). -/
theorem C5_remerge_noop :
    (ConsensusMerger.merge envC5
        [("x", (ConsensusMerger.merge envC5 [("m", goodText)] "python").merged_code)]
        "python").merged_code =
      (ConsensusMerger.merge envC5 [("m", goodText)] "python").merged_code ∧
    (componentsOf envC5 [("x", mergedGood)]).map (fun c => (c.type.value, c.name, c.code)) =
      (componentsOf envC5 [("m", goodText)]).map (fun c => (c.type.value, c.name, c.code)) := by
  constructor <;> decide

/-- Counterexample to claim C6 (idempotence of the repair function): one
application of `_attempt_fix` to `g(a, , )` yields `g(a, )` (the regex
`,\s*\)` rewrites the second comma), and a second application yields `g(a)`
— the repair function is not idempotent. -/
theorem C6_counterexample :
    ConsensusMerger.attemptFix (ConsensusMerger.attemptFix "g(a, , )" []) [] ≠
      ConsensusMerger.attemptFix "g(a, , )" [] := by
  decide

/-- Amended claim C6: the repair function is exactly the composition of the
two conservative textual substitutions (trim a trailing separator before a
closing bracket, then close an evidently unterminated string literal), and
when validation fails the pipeline applies it once and re-validates exactly
once, never raising (the repair phase is a total function); it is however
not idempotent (`C6_counterexample`). -/
theorem C6_repair :
    (∀ (code : String) (e : List String),
       ConsensusMerger.attemptFix code e = fixUnterminated (fixTrailingComma code)) ∧
    (∀ (env : PyEnv) (code language : String),
       (SyntaxValidator.validate env code language).1 = false →
       ConsensusMerger.validateAndRepair env code language =
         (ConsensusMerger.attemptFix code (SyntaxValidator.validate env code language).2,
          (SyntaxValidator.validate env
            (ConsensusMerger.attemptFix code (SyntaxValidator.validate env code language).2)
            language).1,
          (SyntaxValidator.validate env
            (ConsensusMerger.attemptFix code (SyntaxValidator.validate env code language).2)
            language).2,
          ["Validation failed: " ++ pyReprStrList (SyntaxValidator.validate env code language).2])) := by
  refine ⟨fun code e => rfl, ?_⟩
  intro env code language h
  simp [ConsensusMerger.validateAndRepair, h]

/-- Witness for the amended C6 at a concrete invalid input. -/
theorem C6_witness :
    ConsensusMerger.validateAndRepair envErr "def f(:" "python" =
      ("def f(:", false, ["Line 1: invalid syntax"],
       ["Validation failed: " ++ pyReprStrList ["Line 1: invalid syntax"]]) := by
  have h := C6_repair.2 envErr "def f(:" "python" (by decide)
  rw [h]
  decide

/-- Claim C7: `import os` and `import  os` (extra whitespace) contributed by
two different origins collapse to exactly one import line: the merged code
is exactly `import os`, selected from origin A. -/
theorem C7_import_dedup :
    (ConsensusMerger.merge envC7 [("A", "import os"), ("B", impOs2)] "python").merged_code =
      "import os" ∧
    (ConsensusMerger.merge envC7 [("A", "import os"), ("B", impOs2)] "python").components_used =
      [("os", "A")] := by
  constructor <;> decide

/-- Counterexample to claim C8: the origin text `  hi  ` contains no fenced
region and is non-empty, and the extractor yields exactly one block tagged
`text` — but its content is the stripped text `hi`, not the full raw text. -/
theorem C8_counterexample :
    (CodeBlockParser.parse "  hi  " "m").map (fun b => b.content) ≠ ["  hi  "] ∧
    (CodeBlockParser.parse "  hi  " "m").map (fun b => b.content) = ["hi"] := by
  constructor <;> decide

/-- Amended claim C8: for every origin whose raw text contains no fenced code
region and is non-whitespace, the extractor yields exactly one block for that
origin, tagged `text`, containing the whitespace-stripped raw text (the code
strips the text, so a whitespace-only origin yields no block and surrounding
whitespace is not preserved). -/
theorem C8_fallback_extraction :
    ∀ (output model : String), fenceMatches output = [] → pyStrip output ≠ "" →
      CodeBlockParser.parse output model =
        [{ content := pyStrip output, language := "text", source_model := model }] := by
  intro output model h1 h2
  simp [CodeBlockParser.parse, h1, h2]

/-- Witness for the amended C8 at a concrete fence-free input. -/
theorem C8_witness :
    CodeBlockParser.parse "  hi  " "m" =
      [{ content := "hi", language := "text", source_model := "m" }] := by
  have h := C8_fallback_extraction "  hi  " "m" (by decide) (by decide)
  rw [h]
  decide

/-- Rebuilding the names of an alias list ignores the erased `asname`s. -/
theorem map_name_stripAlias (names : List PyAlias) :
    List.map ((fun a => a.name) ∘ stripAlias) names = List.map (fun a => a.name) names := by
  induction names with
  | nil => rfl
  | cons a rest ih => simp [Function.comp, stripAlias, ih]

/-- The first imported name of an alias list ignores the erased `asname`s. -/
theorem headD_name_stripAlias (names : List PyAlias) :
    ((Option.map stripAlias names.head?).getD { name := "", asname := none }).name =
      (names.head?.getD { name := "", asname := none }).name := by
  cases names <;> simp [stripAlias]

/-- Claim C9: for every import statement carrying `as` aliases — of either
kind, `import X as Y` or `from x import y as z` — the extracted Import
component is rebuilt from the AST using only the module/symbol names: the
conversion is invariant under erasing every alias, and the rebuilt code is
exactly the join of the alias `name`s (never mentioning an `asname`).
Concretely, `import numpy as np` yields component code and merged text
`import numpy`, and `from x import y as z` yields component code and merged
text `from x import y`. -/
theorem C9_alias_dropped :
    (∀ (lines : List String) (model : String) (names : List PyAlias),
       PythonComponentParser.nodeToComponent lines model (.imprtN (names.map stripAlias)) =
         PythonComponentParser.nodeToComponent lines model (.imprtN names) ∧
       PythonComponentParser.nodeToComponent lines model (.imprtN names) =
         some { type := .imprt,
                name := (names.headD { name := "", asname := none }).name,
                code := "import " ++ joinSep ", " (names.map (fun a => a.name)),
                source_model := model }) ∧
    (∀ (lines : List String) (model : String) (module : Option String)
       (names : List PyAlias),
       PythonComponentParser.nodeToComponent lines model
           (.importFromN module (names.map stripAlias)) =
         PythonComponentParser.nodeToComponent lines model (.importFromN module names) ∧
       PythonComponentParser.nodeToComponent lines model (.importFromN module names) =
         some { type := .imprt,
                name := (match module with | some m => m | none => "None") ++ "."
                          ++ (names.headD { name := "", asname := none }).name,
                code := "from " ++ module.getD "" ++ " import "
                          ++ joinSep ", " (names.map (fun a => a.name)),
                source_model := model }) ∧
    (PythonComponentParser.parse envC9 "import numpy as np" "m" =
      [{ type := .imprt, name := "numpy", code := "import numpy", source_model := "m" }] ∧
     (ConsensusMerger.merge envC9 [("m", "import numpy as np")] "python").merged_code =
       "import numpy") ∧
    (PythonComponentParser.parse envC9 "from x import y as z" "m" =
      [{ type := .imprt, name := "x.y", code := "from x import y", source_model := "m" }] ∧
     (ConsensusMerger.merge envC9 [("m", "from x import y as z")] "python").merged_code =
       "from x import y") := by
  refine ⟨?_, ?_, ⟨by decide, by decide⟩, ⟨by decide, by decide⟩⟩
  · intro lines model names
    refine ⟨?_, rfl⟩
    simp [PythonComponentParser.nodeToComponent, map_name_stripAlias, headD_name_stripAlias]
  · intro lines model module names
    refine ⟨?_, rfl⟩
    simp [PythonComponentParser.nodeToComponent, map_name_stripAlias, headD_name_stripAlias]

/-- Claim C10: when decomposition yields no component but blocks exist,
`merge` returns the first block of greatest content length verbatim with
total score exactly 50, provenance `raw ↦ origin` and
`validation_passed = true` unconditionally; with no block at all it returns
empty code, score 0, `validation_passed = false` and the populated error
list `["No code to merge"]`. -/
theorem C10_raw_fallback :
    (∀ (env : PyEnv) (outputs : List (String × String)) (bb : CodeBlock),
       componentsOf env outputs = [] →
       maxBlock? (uniqueBlocksOf outputs) = some bb →
       (ConsensusMerger.merge env outputs "python").merged_code = bb.content ∧
       (ConsensusMerger.merge env outputs "python").total_score = 50 ∧
       (ConsensusMerger.merge env outputs "python").components_used =
         [("raw", bb.source_model)] ∧
       (ConsensusMerger.merge env outputs "python").validation_passed = true ∧
       (ConsensusMerger.merge env outputs "python").validation_errors = [] ∧
       bb ∈ uniqueBlocksOf outputs ∧
       (∀ x ∈ uniqueBlocksOf outputs, x.content.length ≤ bb.content.length)) ∧
    (∀ (env : PyEnv) (outputs : List (String × String)),
       uniqueBlocksOf outputs = [] →
       (ConsensusMerger.merge env outputs "python").merged_code = "" ∧
       (ConsensusMerger.merge env outputs "python").total_score = 0 ∧
       (ConsensusMerger.merge env outputs "python").components_used = [] ∧
       (ConsensusMerger.merge env outputs "python").validation_passed = false ∧
       (ConsensusMerger.merge env outputs "python").validation_errors =
         ["No code to merge"]) := by
  constructor
  · intro env outputs bb hc hm
    have hmem := maxBlockSpec _ _ hm
    refine ⟨?_, ?_, ?_, ?_, ?_, hmem.1, hmem.2⟩ <;>
      simp [ConsensusMerger.merge, hc, hm]
  · intro env outputs hb
    have hc : componentsOf env outputs = [] := by
      simp [componentsOf, hb]
    refine ⟨?_, ?_, ?_, ?_, ?_⟩ <;>
      simp [ConsensusMerger.merge, hc, hb, maxBlock?]

/-- Witness for C10: both branches instantiated at concrete inputs. -/
theorem C10_witness :
    (ConsensusMerger.merge envC10 [("m", "print(1)")] "python").merged_code = "print(1)" ∧
    (ConsensusMerger.merge envC10 [("m", "print(1)")] "python").total_score = 50 ∧
    (ConsensusMerger.merge envC10 [("m", "print(1)")] "python").validation_passed = true ∧
    (ConsensusMerger.merge envC10 [("m", "")] "python").merged_code = "" ∧
    (ConsensusMerger.merge envC10 [("m", "")] "python").validation_passed = false := by
  obtain ⟨h1, h2, _, h4, _, _, _⟩ :=
    C10_raw_fallback.1 envC10 [("m", "print(1)")] bbPrint (by decide) (by decide)
  obtain ⟨g1, _, _, g4, _⟩ := C10_raw_fallback.2 envC10 [("m", "")] (by decide)
  exact ⟨h1, h2, h4, g1, g4⟩

end Merger
